import Mathlib

/-!
Verification of the Corten-NetworkStack HTTP behavior-simulation server
(src/test_server.py) against its natural-language specification.

The server is embedded shallowly: strings are lists of characters
(`Str`), byte sequences are lists of naturals below 256, a request is a
record of method, raw path, headers and readable body bytes, and each
Python handler method (do_GET, do_POST, do_PUT, do_DELETE, do_PATCH,
do_OPTIONS) becomes a Lean function from requests to responses.  A
handler that can let a Python exception escape (an uncaught ValueError
or UnicodeDecodeError) returns an `Option Response`, with `none`
standing for the unhandled fault.  Library primitives the server calls
(Python `int(...)`, `str(...)`, `json.dumps` / `json.loads`, UTF-8
codecs, gzip/zlib compression) are modelled as executable Lean
functions faithful to their documented behavior on the inputs the
claims exercise.
-/

namespace TestServer

/-- Model strings as lists of characters so that all reasoning is plain
list reasoning. -/
abbrev Str := List Char

/-- Character list of a Lean string literal. -/
def str (s : String) : Str := s.data

/-- Characters stripped by Python `int(...)` around a numeric literal
(the ASCII whitespace characters). -/
def isPySpace (c : Char) : Bool :=
  c == ' ' || c == '\t' || c == '\n' || c == '\r' || c == '\x0b' || c == '\x0c'

/-- Strip leading and trailing Python whitespace. -/
def stripWs (l : Str) : Str :=
  ((l.dropWhile isPySpace).reverse.dropWhile isPySpace).reverse

/-- Value of an ASCII digit character. -/
def digitVal (c : Char) : Nat := c.toNat - 48

/-- The decimal digit character for a value below ten. -/
def digitChar : Nat → Char
  | 0 => '0' | 1 => '1' | 2 => '2' | 3 => '3' | 4 => '4'
  | 5 => '5' | 6 => '6' | 7 => '7' | 8 => '8' | _ => '9'

/-- Numeric value of a digit string, most significant digit first. -/
def natOfDigits (l : Str) : Nat := l.foldl (fun a c => a * 10 + digitVal c) 0

/-- Check the digit-and-underscore shape accepted by Python `int`:
nonempty, starting with a digit, every underscore directly between two
digits, all other characters digits. -/
def undOkAux : Str → Bool
  | [] => true
  | c :: rest =>
    if c = '_' then
      match rest with
      | [] => false
      | d :: rest2 => d.isDigit && undOkAux rest2
    else c.isDigit && undOkAux rest

/-- Shape check for the unsigned part of a Python integer literal. -/
def undOk : Str → Bool
  | [] => false
  | c :: rest => c.isDigit && undOkAux rest

/-- Remove the underscore digit separators. -/
def remUnd (l : Str) : Str := l.filter (fun c => !(c == '_'))

/-- Python `int(...)` on the unsigned part: digits with optional single
underscores between digits. -/
def pyNatCore (l : Str) : Option Nat :=
  if undOk l then some (natOfDigits (remUnd l)) else none

/-- Python `int(...)` after whitespace stripping: an optional sign
followed by the unsigned digit shape. -/
def pyIntCore : Str → Option Int
  | [] => none
  | c :: rest =>
    if c = '+' then (pyNatCore rest).map Int.ofNat
    else if c = '-' then (pyNatCore rest).map (fun n => -(Int.ofNat n))
    else (pyNatCore (c :: rest)).map Int.ofNat

/-- Model of Python `int(s)` for a decimal string: `some n` when the
call succeeds, `none` when it raises ValueError.  (Non-ASCII digits are
not modelled; the server only ever receives ASCII path segments in the
claims considered here.) -/
def pyInt? (s : Str) : Option Int := pyIntCore (stripWs s)

/-- Decimal digits of a natural number, most significant first, driven
by explicit fuel so that the definition is structural and reduces in
the kernel. -/
def natToDigitsAux : Nat → Nat → Str
  | 0, _ => []
  | fuel + 1, n =>
    if n < 10 then [digitChar n]
    else natToDigitsAux fuel (n / 10) ++ [digitChar (n % 10)]

/-- Decimal digits of a natural number, most significant first. -/
def natToDigits (n : Nat) : Str := natToDigitsAux (n + 1) n

/-- Model of Python `str(...)` on an integer: optional minus sign and
decimal digits. -/
def pyStr (n : Int) : Str :=
  if n < 0 then '-' :: natToDigits n.natAbs else natToDigits n.toNat

theorem digitVal_digitChar (r : Nat) (h : r < 10) : digitVal (digitChar r) = r := by
  interval_cases r <;> rfl

theorem isDigit_digitChar (r : Nat) (h : r < 10) : (digitChar r).isDigit = true := by
  interval_cases r <;> rfl

theorem natOfDigits_append_single (l : Str) (c : Char) :
    natOfDigits (l ++ [c]) = 10 * natOfDigits l + digitVal c := by
  simp [natOfDigits, List.foldl_append, Nat.mul_comm]

theorem natToDigitsAux_spec :
    ∀ fuel n, n < fuel →
      natToDigitsAux fuel n ≠ [] ∧ (∀ c ∈ natToDigitsAux fuel n, c.isDigit) ∧
        natOfDigits (natToDigitsAux fuel n) = n := by
  intro fuel
  induction fuel with
  | zero => intro n h; omega
  | succ f ih =>
    intro n h
    by_cases h10 : n < 10
    · refine ⟨by simp [natToDigitsAux, h10], ?_, ?_⟩
      · intro c hc
        simp [natToDigitsAux, h10] at hc
        subst hc; exact isDigit_digitChar n h10
      · simp [natToDigitsAux, h10, natOfDigits, digitVal_digitChar n h10]
    · have hdiv : n / 10 < n := Nat.div_lt_self (by omega) (by omega)
      have hf : n / 10 < f := by omega
      obtain ⟨hne, hdig, hval⟩ := ih (n / 10) hf
      refine ⟨by simp [natToDigitsAux, h10], ?_, ?_⟩
      · intro c hc
        simp [natToDigitsAux, h10] at hc
        rcases hc with hc | hc
        · exact hdig c hc
        · subst hc; exact isDigit_digitChar _ (Nat.mod_lt _ (by omega))
      · have := natOfDigits_append_single (natToDigitsAux f (n / 10)) (digitChar (n % 10))
        simp only [natToDigitsAux, h10, if_false]
        rw [this, hval, digitVal_digitChar _ (Nat.mod_lt _ (by omega))]
        omega

theorem natToDigits_ne_nil (n : Nat) : natToDigits n ≠ [] :=
  (natToDigitsAux_spec (n + 1) n (by omega)).1

theorem natToDigits_digits (n : Nat) : ∀ c ∈ natToDigits n, c.isDigit :=
  (natToDigitsAux_spec (n + 1) n (by omega)).2.1

theorem natOfDigits_natToDigits (n : Nat) : natOfDigits (natToDigits n) = n :=
  (natToDigitsAux_spec (n + 1) n (by omega)).2.2

theorem ne_underscore_of_digit (c : Char) (h : c.isDigit = true) : c ≠ '_' := by
  intro hc; subst hc; simp at h

theorem undOkAux_of_digits : ∀ l : Str, (∀ c ∈ l, c.isDigit) → undOkAux l = true := by
  intro l
  induction l with
  | nil => intro; rfl
  | cons c rest ih =>
    intro h
    have hc : c.isDigit = true := h c (by simp)
    have hne : ¬(c = '_') := ne_underscore_of_digit c hc
    rw [undOkAux.eq_def]
    simp [hne, hc]
    exact ih (fun d hd => h d (by simp [hd]))

theorem undOk_of_digits (l : Str) (hne : l ≠ []) (h : ∀ c ∈ l, c.isDigit) :
    undOk l = true := by
  cases l with
  | nil => exact absurd rfl hne
  | cons c rest =>
    simp [undOk, h c (by simp)]
    exact undOkAux_of_digits rest (fun d hd => h d (by simp [hd]))

theorem remUnd_of_digits (l : Str) (h : ∀ c ∈ l, c.isDigit) : remUnd l = l := by
  rw [remUnd, List.filter_eq_self]
  intro c hc
  have := ne_underscore_of_digit c (h c hc)
  simp [this]

theorem pyNatCore_natToDigits (n : Nat) : pyNatCore (natToDigits n) = some n := by
  rw [pyNatCore, if_pos (undOk_of_digits _ (natToDigits_ne_nil n) (natToDigits_digits n)),
    remUnd_of_digits _ (natToDigits_digits n), natOfDigits_natToDigits]

theorem isPySpace_of_digit (c : Char) (h : c.isDigit = true) : isPySpace c = false := by
  cases hc : isPySpace c
  · rfl
  · exfalso
    simp [isPySpace] at hc
    rcases hc with ((((h1 | h1) | h1) | h1) | h1) | h1 <;>
      (subst h1; exact absurd h (by decide))

theorem dropWhile_eq_self_of (p : Char → Bool) (l : Str)
    (h : ∀ c ∈ l, p c = false) : List.dropWhile p l = l := by
  cases l with
  | nil => rfl
  | cons c rest => simp [List.dropWhile, h c (by simp)]

theorem stripWs_eq_self (l : Str) (h : ∀ c ∈ l, isPySpace c = false) : stripWs l = l := by
  rw [stripWs, dropWhile_eq_self_of _ _ h,
    dropWhile_eq_self_of _ _ (fun c hc => h c (List.mem_reverse.mp hc)), List.reverse_reverse]

theorem pyStr_not_space (n : Int) : ∀ c ∈ pyStr n, isPySpace c = false := by
  intro c hc
  rw [pyStr] at hc
  split at hc
  · rcases List.mem_cons.mp hc with h1 | h1
    · subst h1; rfl
    · exact isPySpace_of_digit c (natToDigits_digits _ c h1)
  · exact isPySpace_of_digit c (natToDigits_digits _ c hc)

theorem stripWs_pyStr (n : Int) : stripWs (pyStr n) = pyStr n :=
  stripWs_eq_self _ (pyStr_not_space n)

/-- Boolean prefix test on character lists, modelling Python
`path.startswith(lit)`. -/
def startsWithStr : Str → Str → Bool
  | _, [] => true
  | [], _ :: _ => false
  | c :: l, d :: p => c == d && startsWithStr l p

/-- Split on a separator character, modelling Python `s.split(sep)` for
a one-character separator: always returns at least one piece. -/
def splitOnChar (sep : Char) : Str → List Str
  | [] => [[]]
  | c :: rest =>
    match splitOnChar sep rest with
    | [] => [[]]
    | s :: ss => if c = sep then [] :: s :: ss else (c :: s) :: ss

/-- Last element of a list of pieces, with `[]` for an empty list;
models the Python index `[-1]` on the (always nonempty) split result. -/
def lastD : List Str → Str
  | [] => []
  | [x] => x
  | _ :: y :: ys => lastD (y :: ys)

/-- The trailing path segment, modelling `path.split('/')[-1]`. -/
def lastSegment (l : Str) : Str := lastD (splitOnChar '/' l)

/-- Substring containment, modelling Python `sub in s`. -/
def containsSub (l sub : Str) : Bool :=
  (List.range (l.length + 1)).any (fun i => startsWithStr (l.drop i) sub)

/-- ASCII lowercasing of one character, as used by the case-insensitive
header lookup of `email.message.Message.get`. -/
def lowerChar (c : Char) : Char :=
  if 'A' ≤ c ∧ c ≤ 'Z' then Char.ofNat (c.toNat + 32) else c

/-- ASCII lowercasing of a character list. -/
def lowerStr (l : Str) : Str := l.map lowerChar

/-- Case-insensitive header lookup returning the first matching value,
modelling `self.headers.get(name)` (None when absent). -/
def headerGet? (hs : List (Str × Str)) (name : Str) : Option Str :=
  (hs.find? (fun kv => lowerStr kv.fst == lowerStr name)).map Prod.snd

/-- Case-insensitive header lookup with a default, modelling
`self.headers.get(name, default)`. -/
def headerGetD (hs : List (Str × Str)) (name d : Str) : Str :=
  (headerGet? hs name).getD d

/-- Python f-string interpolation of an optional string: `None` prints
as the four characters `None`. -/
def pyOptStr (o : Option Str) : Str := o.getD (str "None")

/-- First occurrences of each exact key, in order, driven by fuel so
the definition is structural. -/
def dedupKeysAux : Nat → List Str → List Str
  | 0, _ => []
  | _, [] => []
  | f + 1, k :: rest => k :: dedupKeysAux f (rest.filter (fun x => !(x == k)))

/-- First occurrences of each exact key, in order. -/
def dedupKeys (ks : List Str) : List Str := dedupKeysAux ks.length ks

/-- Model of Python `dict(self.headers)`: iterate the header keys in
arrival order, keeping each distinct raw key once, and associate to it
the value of the first case-insensitive match (the value
`self.headers[k]` returns). -/
def dictHeaders (hs : List (Str × Str)) : List (Str × Str) :=
  (dedupKeys (hs.map Prod.fst)).map (fun k => (k, headerGetD hs k []))

/-- UTF-8 encoding of one scalar value. -/
def utf8EncodeChar (c : Char) : List Nat :=
  let n := c.toNat
  if n < 0x80 then [n]
  else if n < 0x800 then [0xC0 + n / 64, 0x80 + n % 64]
  else if n < 0x10000 then
    [0xE0 + n / 4096, 0x80 + (n / 64) % 64, 0x80 + n % 64]
  else
    [0xF0 + n / 262144, 0x80 + (n / 4096) % 64, 0x80 + (n / 64) % 64, 0x80 + n % 64]

/-- UTF-8 encoding of a character list, modelling `s.encode('utf-8')`. -/
def utf8Encode (l : Str) : List Nat := (l.map utf8EncodeChar).flatten

/-- Test for a UTF-8 continuation byte. -/
def isCont (b : Nat) : Bool := 0x80 ≤ b && b < 0xC0

/-- Strict UTF-8 decoding, modelling `bytes.decode('utf-8')`: `none`
when the bytes are not valid UTF-8 (a UnicodeDecodeError).  The
`surrogatepass` handler used by `json.loads` additionally admits
encoded surrogates, which Lean characters cannot represent; no claim
exercises that corner. -/
def utf8Decode? : List Nat → Option Str
  | [] => some []
  | b :: rest =>
    if b < 0x80 then (utf8Decode? rest).map (fun s => Char.ofNat b :: s)
    else if b < 0xE0 then
      match rest with
      | b1 :: rest2 =>
        if 0xC2 ≤ b && isCont b1 then
          (utf8Decode? rest2).map (fun s => Char.ofNat ((b - 0xC0) * 64 + (b1 - 0x80)) :: s)
        else none
      | _ => none
    else if b < 0xF0 then
      match rest with
      | b1 :: b2 :: rest2 =>
        let v := (b - 0xE0) * 4096 + (b1 - 0x80) * 64 + (b2 - 0x80)
        if isCont b1 && isCont b2 && 0x800 ≤ v && !(0xD800 ≤ v && v < 0xE000) then
          (utf8Decode? rest2).map (fun s => Char.ofNat v :: s)
        else none
      | _ => none
    else
      match rest with
      | b1 :: b2 :: b3 :: rest2 =>
        let v := (b - 0xF0) * 262144 + (b1 - 0x80) * 4096 + (b2 - 0x80) * 64 + (b3 - 0x80)
        if b < 0xF5 && isCont b1 && isCont b2 && isCont b3 &&
            0x10000 ≤ v && v < 0x110000 then
          (utf8Decode? rest2).map (fun s => Char.ofNat v :: s)
        else none
      | _ => none

/-- The Unicode replacement character. -/
def replChar : Char := Char.ofNat 0xFFFD

/-- Lower bound of the first continuation byte admitted after a
three-byte lead (0xA0 after 0xE0, else 0x80). -/
def cont3Lo (b : Nat) : Nat := if b = 0xE0 then 0xA0 else 0x80

/-- Upper bound (inclusive) of the first continuation byte admitted
after a three-byte lead (0x9F after 0xED, which excludes encoded
surrogates, else 0xBF). -/
def cont3Hi (b : Nat) : Nat := if b = 0xED then 0x9F else 0xBF

/-- Lower bound of the first continuation byte admitted after a
four-byte lead (0x90 after 0xF0). -/
def cont4Lo (b : Nat) : Nat := if b = 0xF0 then 0x90 else 0x80

/-- Upper bound (inclusive) of the first continuation byte admitted
after a four-byte lead (0x8F after 0xF4, which caps at U+10FFFF). -/
def cont4Hi (b : Nat) : Nat := if b = 0xF4 then 0x8F else 0xBF

/-- Fuel-driven core of the replacing UTF-8 decoder, following
CPython's `errors='replace'` semantics: an invalid sequence is
replaced by one U+FFFD per maximal subpart of a valid sequence — a
truncated but so-far-valid multi-byte prefix is consumed as a whole
for a single replacement character, while an out-of-range byte ends
the subpart before it and is then processed on its own.  The fuel
makes the recursion structural so concrete values reduce in the
kernel. -/
def utf8DecodeReplaceAux : Nat → List Nat → Str
  | 0, _ => []
  | _, [] => []
  | f + 1, b :: rest =>
    if b < 0x80 then Char.ofNat b :: utf8DecodeReplaceAux f rest
    else if b < 0xC2 then replChar :: utf8DecodeReplaceAux f rest
    else if b < 0xE0 then
      match rest with
      | b1 :: rest2 =>
        if isCont b1 then
          Char.ofNat ((b - 0xC0) * 64 + (b1 - 0x80)) :: utf8DecodeReplaceAux f rest2
        else replChar :: utf8DecodeReplaceAux f rest
      | [] => [replChar]
    else if b < 0xF0 then
      match rest with
      | b1 :: rest2 =>
        if cont3Lo b ≤ b1 ∧ b1 ≤ cont3Hi b then
          match rest2 with
          | b2 :: rest3 =>
            if isCont b2 then
              Char.ofNat ((b - 0xE0) * 4096 + (b1 - 0x80) * 64 + (b2 - 0x80)) ::
                utf8DecodeReplaceAux f rest3
            else replChar :: utf8DecodeReplaceAux f rest2
          | [] => [replChar]
        else replChar :: utf8DecodeReplaceAux f rest
      | [] => [replChar]
    else if b < 0xF5 then
      match rest with
      | b1 :: rest2 =>
        if cont4Lo b ≤ b1 ∧ b1 ≤ cont4Hi b then
          match rest2 with
          | b2 :: rest3 =>
            if isCont b2 then
              match rest3 with
              | b3 :: rest4 =>
                if isCont b3 then
                  Char.ofNat ((b - 0xF0) * 262144 + (b1 - 0x80) * 4096 +
                    (b2 - 0x80) * 64 + (b3 - 0x80)) :: utf8DecodeReplaceAux f rest4
                else replChar :: utf8DecodeReplaceAux f rest3
              | [] => [replChar]
            else replChar :: utf8DecodeReplaceAux f rest2
          | [] => [replChar]
        else replChar :: utf8DecodeReplaceAux f rest
      | [] => [replChar]
    else replChar :: utf8DecodeReplaceAux f rest

/-- UTF-8 decoding with replacement, modelling
`bytes.decode('utf-8', errors='replace')` with CPython's
maximal-subpart substitution. -/
def utf8DecodeReplace (l : List Nat) : Str := utf8DecodeReplaceAux l.length l

/-- Model of `self.rfile.read(n)`: at most `n` bytes of the pending
request body (all of it for a negative count, as for a Python file
read with a negative size). -/
def readBytes (n : Int) (avail : List Nat) : List Nat :=
  if n < 0 then avail else avail.take n.toNat

/-- A Python string as a sequence of code points.  Unlike Lean
characters, Python string elements may be lone surrogates
(0xD800-0xDFFF), which `json.loads` can produce from `\uXXXX`
escapes, so JSON string content is modelled at this level. -/
abbrev PyStr := List Nat

/-- Code points of a Lean character list. -/
def pyCodes (s : Str) : PyStr := s.map Char.toNat

mutual

/-- JSON values as Python's `json` module produces them.  A float
literal is kept as its exact decimal value `m * 10 ^ e` (`flt m e`);
the IEEE rounding Python applies to floats is not modelled and no
claim exercises float-valued JSON.  `nan`, `inf` and `ninf` model the
non-standard `NaN` / `Infinity` / `-Infinity` literals Python accepts
and emits by default.  String content is a `PyStr` so that lone
surrogates survive parsing as they do in Python. -/
inductive Json where
  | null
  | bool (b : Bool)
  | int (n : Int)
  | flt (m : Int) (e : Int)
  | nan
  | inf
  | ninf
  | str (s : PyStr)
  | arr (xs : JArr)
  | obj (kvs : JObj)
deriving DecidableEq

/-- Spine of a JSON array (kept first-order so that recursion over
JSON values is structural). -/
inductive JArr where
  | nil
  | cons (hd : Json) (tl : JArr)
deriving DecidableEq

/-- Spine of a JSON object; keys are Python strings. -/
inductive JObj where
  | nil
  | cons (k : PyStr) (v : Json) (tl : JObj)
deriving DecidableEq

end

/-- A JSON string value from a Lean character list. -/
def jstr (s : Str) : Json := .str (pyCodes s)

/-- Build an array spine from a list. -/
def jarr : List Json → JArr
  | [] => .nil
  | x :: xs => .cons x (jarr xs)

/-- Build an object spine from a code-point key/value list. -/
def jobjC : List (PyStr × Json) → JObj
  | [] => .nil
  | kv :: kvs => .cons kv.1 kv.2 (jobjC kvs)

/-- Build an object spine from a character-list key/value list. -/
def jobj (kvs : List (Str × Json)) : JObj :=
  jobjC (kvs.map (fun kv => (pyCodes kv.1, kv.2)))

/-- A JSON object from a key/value list. -/
def jObj (kvs : List (Str × Json)) : Json := .obj (jobj kvs)

/-- Lowercase hexadecimal digit character. -/
def hexChar (n : Nat) : Char :=
  if n < 10 then digitChar n else Char.ofNat (87 + n)

/-- The six-character escape `\uXXXX` used by `json.dumps`. -/
def escU (n : Nat) : Str :=
  ['\\', 'u', hexChar (n / 4096 % 16), hexChar (n / 256 % 16),
   hexChar (n / 16 % 16), hexChar (n % 16)]

/-- Escaping of one code point by `json.dumps` with its default
`ensure_ascii=True`: printable ASCII except quote and backslash is
kept, everything else escaped; astral code points become surrogate
pairs, lone surrogates are escaped directly as Python does. -/
def escapeJsonCode (n : Nat) : Str :=
  if n = 34 then ['\\', '"']
  else if n = 92 then ['\\', '\\']
  else if n = 10 then ['\\', 'n']
  else if n = 13 then ['\\', 'r']
  else if n = 9 then ['\\', 't']
  else if n = 8 then ['\\', 'b']
  else if n = 12 then ['\\', 'f']
  else if n < 0x20 then escU n
  else if n < 0x7f then [Char.ofNat n]
  else if n < 0x10000 then escU n
  else
    escU (0xD800 + (n - 0x10000) / 1024) ++ escU (0xDC00 + (n - 0x10000) % 1024)

/-- A JSON string literal as `json.dumps` prints it. -/
def dumpsStrLit (s : PyStr) : Str :=
  '"' :: (s.map escapeJsonCode).flatten ++ ['"']

/-- Rendering of the numeric constructors. -/
def dumpsNum (m : Int) (e : Int) : Str :=
  if e = 0 then pyStr m else pyStr m ++ 'e' :: pyStr e

mutual

/-- Model of `json.dumps` with its default separators `(', ', ': ')`
and `ensure_ascii=True`. -/
def jsonDumps : Json → Str
  | .null => str "null"
  | .bool true => str "true"
  | .bool false => str "false"
  | .int n => pyStr n
  | .flt m e => dumpsNum m e
  | .nan => str "NaN"
  | .inf => str "Infinity"
  | .ninf => str "-Infinity"
  | .str s => dumpsStrLit s
  | .arr xs => '[' :: List.intercalate (str ", ") (dumpsArr xs) ++ [']']
  | .obj kvs => '{' :: List.intercalate (str ", ") (dumpsObj kvs) ++ ['}']

/-- Serialized pieces of an array spine. -/
def dumpsArr : JArr → List Str
  | .nil => []
  | .cons x tl => jsonDumps x :: dumpsArr tl

/-- Serialized pieces of an object spine. -/
def dumpsObj : JObj → List Str
  | .nil => []
  | .cons k v tl => (dumpsStrLit k ++ str ": " ++ jsonDumps v) :: dumpsObj tl

end

/-- JSON whitespace characters skipped by Python's decoder. -/
def isJsonWs (c : Char) : Bool := c == ' ' || c == '\t' || c == '\n' || c == '\r'

/-- Skip JSON whitespace. -/
def skipWs (l : Str) : Str := l.dropWhile isJsonWs

/-- Value of a hexadecimal digit character, if any. -/
def hexVal? (c : Char) : Option Nat :=
  if '0' ≤ c ∧ c ≤ '9' then some (c.toNat - 48)
  else if 'a' ≤ c ∧ c ≤ 'f' then some (c.toNat - 87)
  else if 'A' ≤ c ∧ c ≤ 'F' then some (c.toNat - 55)
  else none

/-- Parse the body of a JSON string literal after its opening quote,
as Python's strict decoder does: literal control characters are
rejected, the short escapes and `\uXXXX` are accepted, a high
surrogate escape immediately followed by a low surrogate escape is
combined into one astral code point, and any other surrogate escape
stays in the string as a lone surrogate code point — exactly as
CPython's `py_scanstring` behaves. -/
def parseStrLit : Nat → Str → Option (PyStr × Str)
  | 0, _ => none
  | f + 1, l =>
    match l with
    | [] => none
    | '"' :: rest => some ([], rest)
    | '\\' :: esc =>
      match esc with
      | 'u' :: h1 :: h2 :: h3 :: h4 :: rest2 =>
        (hexVal? h1).bind fun x1 => (hexVal? h2).bind fun x2 =>
        (hexVal? h3).bind fun x3 => (hexVal? h4).bind fun x4 =>
        let v := 4096 * x1 + 256 * x2 + 16 * x3 + x4
        if 0xD800 ≤ v ∧ v < 0xDC00 then
          match rest2 with
          | '\\' :: 'u' :: g1 :: g2 :: g3 :: g4 :: rest3 =>
            (match hexVal? g1, hexVal? g2, hexVal? g3, hexVal? g4 with
             | some y1, some y2, some y3, some y4 =>
               let w := 4096 * y1 + 256 * y2 + 16 * y3 + y4
               if 0xDC00 ≤ w ∧ w < 0xE000 then
                 (parseStrLit f rest3).map
                   (fun p => ((0x10000 + (v - 0xD800) * 1024 + (w - 0xDC00)) :: p.1, p.2))
               else (parseStrLit f rest2).map (fun p => (v :: p.1, p.2))
             | _, _, _, _ => (parseStrLit f rest2).map (fun p => (v :: p.1, p.2)))
          | _ => (parseStrLit f rest2).map (fun p => (v :: p.1, p.2))
        else (parseStrLit f rest2).map (fun p => (v :: p.1, p.2))
      | c :: rest2 =>
        let e? : Option Char :=
          if c = '"' then some '"'
          else if c = '\\' then some '\\'
          else if c = '/' then some '/'
          else if c = 'b' then some '\x08'
          else if c = 'f' then some '\x0c'
          else if c = 'n' then some '\n'
          else if c = 'r' then some '\x0d'
          else if c = 't' then some '\t'
          else none
        e?.bind fun e => (parseStrLit f rest2).map (fun p => (e.toNat :: p.1, p.2))
      | [] => none
    | c :: rest =>
      if c.toNat < 0x20 then none
      else (parseStrLit f rest).map (fun p => (c.toNat :: p.1, p.2))

/-- Take the leading run of ASCII digits. -/
def spanDigits (l : Str) : Str × Str :=
  (l.takeWhile Char.isDigit, l.dropWhile Char.isDigit)

/-- The integer part of Python's JSON number regex: `0` or a nonzero
digit followed by digits. -/
def parseIntPart : Str → Option (Str × Str)
  | [] => none
  | c :: rest =>
    if c = '0' then some ([c], rest)
    else if c.isDigit then
      some (c :: (spanDigits rest).1, (spanDigits rest).2)
    else none

/-- A JSON number per Python's `NUMBER_RE`; an integer when neither a
fraction nor an exponent is present, a float literal otherwise. -/
def parseNum (l : Str) : Option (Json × Str) :=
  let sign : Bool × Str := match l with | '-' :: r => (true, r) | _ => (false, l)
  (parseIntPart sign.2).bind fun ipr =>
  let fracPair : Str × Str :=
    match ipr.2 with
    | '.' :: r =>
      match spanDigits r with
      | ([], _) => ([], ipr.2)
      | (d, rr) => (d, rr)
    | _ => ([], ipr.2)
  let expPair : Option Int × Str :=
    match fracPair.2 with
    | e :: r =>
      if e = 'e' ∨ e = 'E' then
        match r with
        | '+' :: r3 =>
          (match spanDigits r3 with
           | ([], _) => (none, fracPair.2)
           | (d, rr) => (some (Int.ofNat (natOfDigits d)), rr))
        | '-' :: r3 =>
          (match spanDigits r3 with
           | ([], _) => (none, fracPair.2)
           | (d, rr) => (some (-(Int.ofNat (natOfDigits d))), rr))
        | _ =>
          (match spanDigits r with
           | ([], _) => (none, fracPair.2)
           | (d, rr) => (some (Int.ofNat (natOfDigits d)), rr))
      else (none, fracPair.2)
    | [] => (none, fracPair.2)
  let mag : Int := Int.ofNat (natOfDigits (ipr.1 ++ fracPair.1))
  let m : Int := if sign.1 then -mag else mag
  match fracPair.1, expPair.1 with
  | [], none => some (.int m, fracPair.2)
  | fr, e? =>
    some (.flt m (e?.getD 0 - Int.ofNat fr.length), expPair.2)

/-- Modes of the combined recursive-descent JSON scanner: a single
value, the element loop of an array, or the member loop of an
object. -/
inductive PMode where
  | value
  | arrLoop
  | objLoop

/-- Insert a key into an object under Python dict semantics: an
existing key keeps its position and takes the new value, a new key is
appended. -/
def objInsert (acc : List (PyStr × Json)) (k : PyStr) (v : Json) : List (PyStr × Json) :=
  if acc.any (fun kv => kv.1 == k) then
    acc.map (fun kv => if kv.1 == k then (k, v) else kv)
  else acc ++ [(k, v)]

/-- Combined fuel-driven JSON scanner modelling Python's strict
decoder (`json.loads` on text): strings, objects with
double-quoted keys, arrays, `true` / `false` / `null`, the
`NaN` / `Infinity` / `-Infinity` literals, and numbers; trailing
commas and unquoted tokens are rejected. -/
def parseCore : Nat → PMode → Str → List Json → List (PyStr × Json) → Option (Json × Str)
  | 0, _, _, _, _ => none
  | f + 1, .value, l, _, _ =>
    (match l with
     | '{' :: rest => parseCore f .objLoop (skipWs rest) [] []
     | '[' :: rest => parseCore f .arrLoop (skipWs rest) [] []
     | '"' :: rest => (parseStrLit f rest).map (fun p => (Json.str p.1, p.2))
     | _ =>
       if startsWithStr l (str "true") then some (.bool true, l.drop 4)
       else if startsWithStr l (str "false") then some (.bool false, l.drop 5)
       else if startsWithStr l (str "null") then some (.null, l.drop 4)
       else if startsWithStr l (str "NaN") then some (.nan, l.drop 3)
       else if startsWithStr l (str "Infinity") then some (.inf, l.drop 8)
       else if startsWithStr l (str "-Infinity") then some (.ninf, l.drop 9)
       else parseNum l)
  | f + 1, .arrLoop, l, accA, _ =>
    (match l with
     | ']' :: rest => if accA.isEmpty then some (.arr (jarr []), rest) else none
     | _ =>
       (parseCore f .value l [] []).bind fun p =>
       match skipWs p.2 with
       | ',' :: r2 => parseCore f .arrLoop (skipWs r2) (accA ++ [p.1]) []
       | ']' :: r2 => some (.arr (jarr (accA ++ [p.1])), r2)
       | _ => none)
  | f + 1, .objLoop, l, _, accO =>
    (match l with
     | '}' :: rest => if accO.isEmpty then some (.obj (jobjC []), rest) else none
     | '"' :: rest =>
       (parseStrLit f rest).bind fun kp =>
       match skipWs kp.2 with
       | ':' :: r2 =>
         (parseCore f .value (skipWs r2) [] []).bind fun vp =>
         let acc2 := objInsert accO kp.1 vp.1
         (match skipWs vp.2 with
          | ',' :: r4 => parseCore f .objLoop (skipWs r4) [] acc2
          | '}' :: r4 => some (.obj (jobjC acc2), r4)
          | _ => none)
       | _ => none
     | _ => none)

/-- Model of Python `json.loads` on a character string: leading and
trailing JSON whitespace allowed, exactly one value, `none` for a
JSONDecodeError. -/
def jsonLoads? (s : Str) : Option Json :=
  (parseCore (3 * s.length + 3) .value (skipWs s) [] []).bind fun p =>
  if skipWs p.2 = [] then some p.1 else none

/-- Fuel-driven percent-and-plus decoding of a query component to
bytes, modelling `urllib.parse.unquote_plus`: `+` is a space, `%XX` a
byte, an invalid escape is kept literally. -/
def unquotePlusBytesAux : Nat → Str → List Nat
  | 0, _ => []
  | _, [] => []
  | f + 1, c :: r =>
    if c = '+' then 32 :: unquotePlusBytesAux f r
    else if c = '%' then
      match r with
      | a :: b :: r2 =>
        (match hexVal? a, hexVal? b with
         | some x, some y => (16 * x + y) :: unquotePlusBytesAux f r2
         | _, _ => 37 :: unquotePlusBytesAux f r)
      | _ => 37 :: unquotePlusBytesAux f r
    else utf8EncodeChar c ++ unquotePlusBytesAux f r

/-- Percent-and-plus decoding of a query component to bytes. -/
def unquotePlusBytes (s : Str) : List Nat := unquotePlusBytesAux s.length s

/-- Decoded text of a query component (UTF-8 with replacement, as
`parse_qs` defaults to). -/
def unquotePlus (s : Str) : Str := utf8DecodeReplace (unquotePlusBytes s)

/-- Split a query field at its first `=`, `none` when there is no
`=` (such fields are skipped by `parse_qs`). -/
def splitFirstEq (field : Str) : Option (Str × Str) :=
  match field.dropWhile (fun c => !(c == '=')) with
  | '=' :: v => some (field.takeWhile (fun c => !(c == '=')), v)
  | _ => none

/-- Name/value pairs of a query string under `parse_qs` defaults:
split on `&`, fields without `=` or with an empty raw value dropped,
names and values percent-decoded. -/
def parseQsPairs (qs : Str) : List (Str × Str) :=
  (splitOnChar '&' qs).filterMap fun f =>
    (splitFirstEq f).bind fun nv =>
      if nv.2.isEmpty then none else some (unquotePlus nv.1, unquotePlus nv.2)

/-- First value registered for a query parameter, with a default:
models `parse_qs(query).get(name, [default])[0]`. -/
def parseQsGet (qs name d : Str) : Str :=
  match (parseQsPairs qs).find? (fun p => p.1 == name) with
  | some p => p.2
  | none => d

/-- One bit step of the reflected CRC-32 computation. -/
def crc32Bit (c : Nat) : Nat :=
  if c % 2 = 1 then (c / 2) ^^^ 0xEDB88320 else c / 2

/-- Fold one byte into a CRC-32 state. -/
def crc32Byte (c b : Nat) : Nat :=
  crc32Bit (crc32Bit (crc32Bit (crc32Bit
    (crc32Bit (crc32Bit (crc32Bit (crc32Bit (c ^^^ b))))))))

/-- CRC-32 checksum as used by the gzip format. -/
def crc32 (data : List Nat) : Nat :=
  (data.foldl crc32Byte 0xFFFFFFFF) ^^^ 0xFFFFFFFF

/-- Adler-32 checksum as used by the zlib format. -/
def adler32 (data : List Nat) : Nat :=
  let p := data.foldl
    (fun ab b => ((ab.1 + b) % 65521, (ab.2 + (ab.1 + b)) % 65521)) (1, 0)
  p.2 * 65536 + p.1

/-- Two little-endian bytes. -/
def le16 (n : Nat) : List Nat := [n % 256, n / 256 % 256]

/-- Four little-endian bytes. -/
def le32 (n : Nat) : List Nat :=
  [n % 256, n / 256 % 256, n / 65536 % 256, n / 16777216 % 256]

/-- Four big-endian bytes. -/
def be32 (n : Nat) : List Nat := (le32 n).reverse

/-- DEFLATE stream made of stored (uncompressed) blocks: block header
byte (BFINAL in bit 0, BTYPE=00), LEN, NLEN (its complement), raw
bytes. -/
def storedBlocks : Nat → List Nat → List Nat
  | 0, _ => []
  | f + 1, data =>
    if data.length ≤ 65535 then
      1 :: (le16 data.length ++ le16 (65535 - data.length) ++ data)
    else
      0 :: (le16 65535 ++ le16 0 ++ data.take 65535 ++ storedBlocks f (data.drop 65535))

/-- A complete DEFLATE stream holding the data in stored blocks. -/
def deflateStored (data : List Nat) : List Nat :=
  storedBlocks (data.length + 1) data

/-- Inflate a DEFLATE stream of stored blocks, returning the payload
and the bytes following the final block. -/
def inflateStored : Nat → List Nat → Option (List Nat × List Nat)
  | 0, _ => none
  | _ + 1, [] => none
  | f + 1, b :: rest =>
    if b / 2 % 4 = 0 then
      match rest with
      | l0 :: l1 :: n0 :: n1 :: rest2 =>
        let len := l0 + 256 * l1
        if n0 = 255 - l0 ∧ n1 = 255 - l1 ∧ len ≤ rest2.length then
          if b % 2 = 1 then some (rest2.take len, rest2.drop len)
          else
            (inflateStored f (rest2.drop len)).map
              (fun p => (rest2.take len ++ p.1, p.2))
        else none
      | _ => none
    else none

/-- Model of the gzip codec primitive (`gzip.compress`): the server
treats gzip as a provided capability, and it is modelled here by a
verified format-conformant implementation emitting stored DEFLATE
blocks, MTIME 0, and the standard CRC-32 / ISIZE trailer. -/
def gzipCompress (data : List Nat) : List Nat :=
  [0x1f, 0x8b, 8, 0, 0, 0, 0, 0, 0, 255] ++ deflateStored data ++
    le32 (crc32 data) ++ le32 (data.length % 4294967296)

/-- Gzip decompression for flag-free members with stored DEFLATE
blocks, verifying the CRC-32 and ISIZE trailer. -/
def gzipDecompress? (l : List Nat) : Option (List Nat) :=
  match l with
  | 0x1f :: 0x8b :: 8 :: 0 :: _ :: _ :: _ :: _ :: _ :: _ :: rest =>
    (inflateStored (rest.length + 1) rest).bind fun p =>
    (match p.2 with
     | [c0, c1, c2, c3, s0, s1, s2, s3] =>
       if [c0, c1, c2, c3] = le32 (crc32 p.1) ∧
           [s0, s1, s2, s3] = le32 (p.1.length % 4294967296) then some p.1
       else none
     | _ => none)
  | _ => none

/-- Model of the zlib codec primitive (`zlib.compress`): verified
stored-block implementation with the standard 0x78 header and Adler-32
trailer. -/
def zlibCompress (data : List Nat) : List Nat :=
  [0x78, 0x01] ++ deflateStored data ++ be32 (adler32 data)

/-- Zlib decompression for streams of stored DEFLATE blocks, checking
the header consistency bits and the Adler-32 trailer. -/
def zlibDecompress? (l : List Nat) : Option (List Nat) :=
  match l with
  | cmf :: flg :: rest =>
    if cmf % 16 = 8 ∧ cmf / 16 ≤ 7 ∧ (cmf * 256 + flg) % 31 = 0 ∧
        flg / 32 % 2 = 0 then
      (inflateStored (rest.length + 1) rest).bind fun p =>
      (match p.2 with
       | [a3, a2, a1, a0] =>
         if [a3, a2, a1, a0] = be32 (adler32 p.1) then some p.1 else none
       | _ => none)
    else none
  | _ => none

/-- HTTP methods the handler class implements (any other method is
answered by the underlying library, outside this model). -/
inductive Method where
  | GET | POST | PUT | DELETE | PATCH | OPTIONS
deriving DecidableEq

/-- An inbound request: method, the raw `self.path` (which may carry a
query string), the header list in arrival order, and the bytes
available on the request stream (`self.rfile`). -/
structure Request where
  method : Method
  path : Str
  headers : List (Str × Str)
  rfile : List Nat
deriving DecidableEq

/-- A synthesized response: status code, the explicitly sent headers
in order (the Server and Date headers the base library adds on
`send_response` are not modelled), body bytes, and the seconds passed
to `time.sleep` before responding, when any. -/
structure Response where
  status : Int
  headers : List (Str × Str)
  body : List Nat
  slept : Option Int
deriving DecidableEq

/-- The path component of `urlparse(self.path)`: everything before the
first `?` or `#`. -/
def urlparsePath (l : Str) : Str :=
  l.takeWhile (fun c => !(c == '?') && !(c == '#'))

/-- The query component of `urlparse(self.path)`: after the first `?`,
up to a fragment, empty when the `?` lies inside the fragment. -/
def urlparseQuery (l : Str) : Str :=
  ((l.takeWhile (fun c => !(c == '#'))).dropWhile (fun c => !(c == '?'))).drop 1

/-- A single-quoted token of a CSP policy string. -/
def sqStr (inner : Str) : Str := Char.ofNat 39 :: inner ++ [Char.ofNat 39]

/-- Headers emitted by `add_cors_headers` (source lines 20-27): when
`credentials` is set, the allow-origin value is looked up again from
the request's `Origin` header with the `origin` argument as default,
and an `Access-Control-Allow-Credentials: true` header is added. -/
def add_cors_headers (req : Request) (origin methods headers : Str)
    (credentials : Bool) : List (Str × Str) :=
  [(str "Access-Control-Allow-Origin",
    if credentials then headerGetD req.headers (str "Origin") origin else origin),
   (str "Access-Control-Allow-Methods", methods),
   (str "Access-Control-Allow-Headers", headers)] ++
  (if credentials then [(str "Access-Control-Allow-Credentials", str "true")] else []) ++
  [(str "Access-Control-Max-Age", str "86400")]

/-- The `add_cors_headers()` call with all defaults. -/
def corsDefaults (req : Request) : List (Str × Str) :=
  add_cors_headers req (str "*") (str "GET, POST, PUT, DELETE, OPTIONS") (str "*") false

/-- The headers-as-mapping JSON value `dict(self.headers)`. -/
def headersJson (hs : List (Str × Str)) : Json :=
  jObj ((dictHeaders hs).map (fun kv => (kv.1, jstr kv.2)))

/-- Model of `send_json_response` (source lines 33-44). -/
def send_json_response (req : Request) (status : Int) (data : Json)
    (cors : Bool) (csp : Option Str) : Response :=
  let response := utf8Encode (jsonDumps data)
  ⟨status,
   (if cors then corsDefaults req else []) ++
     (match csp with
      | some p => [(str "Content-Security-Policy", p)]
      | none => []) ++
     [(str "Content-Type", str "application/json"),
      (str "Content-Length", pyStr (Int.ofNat response.length))],
   response, none⟩

/-- Model of `send_text_response` (source lines 46-57). -/
def send_text_response (req : Request) (status : Int) (text : Str)
    (ctype : Str) (cors : Bool) (csp : Option Str) : Response :=
  let response := utf8Encode text
  ⟨status,
   (if cors then corsDefaults req else []) ++
     (match csp with
      | some p => [(str "Content-Security-Policy", p)]
      | none => []) ++
     [(str "Content-Type", ctype),
      (str "Content-Length", pyStr (Int.ofNat response.length))],
   response, none⟩

/-- The request URL echoed by the echo endpoints:
`f'http://[Host header]{self.path}'` (a missing Host header prints as
`None`, as the f-string interpolates the value `None`). -/
def echoUrl (req : Request) : Str :=
  str "http://" ++ pyOptStr (headerGet? req.headers (str "Host")) ++ req.path

/-- Whether every character fits in Latin-1.  `send_header` writes the
header line with `.encode('latin-1', 'strict')`, so a header value
with a code point above 255 raises an uncaught UnicodeEncodeError. -/
def latin1Ok (s : Str) : Bool := s.all (fun c => decide (c.toNat ≤ 255))

/-- The largest integer second count `time.sleep` accepts: the value
is converted to a signed 64-bit nanosecond count first, so any integer
outside ±9223372036 seconds (2^63 - 1 nanoseconds) raises an uncaught
OverflowError before the negativity check can raise the caught
ValueError. -/
def sleepMaxSeconds : Int := 9223372036

/-- Dispatch chain of `do_GET` (source lines 59-245) over the parsed
path component, in source order.  Total: no GET branch can raise. -/
def do_GET_dispatch (req : Request) (path : Str) : Option Response :=
  if path = str "/get" then
    some (send_json_response req 200 (jObj
      [(str "method", jstr (str "GET")),
       (str "url", jstr (echoUrl req)),
       (str "headers", headersJson req.headers)]) false none)
  else if startsWithStr path (str "/status/") then
    match pyInt? (lastSegment path) with
    | some code => some ⟨code, [], [], none⟩
    | none => some ⟨400, [], [], none⟩
  else if path = str "/headers" then
    some (send_json_response req 200 (jObj
      [(str "headers", headersJson req.headers)]) false none)
  else if path = str "/response-headers" then
    let content_type :=
      parseQsGet (urlparseQuery req.path) (str "Content-Type") (str "application/json")
    if latin1Ok content_type then
      some ⟨200, [(str "Content-Type", content_type)], [123, 125], none⟩
    else none
  else if startsWithStr path (str "/redirect/") then
    match pyInt? (lastSegment path) with
    | some remaining =>
      if remaining > 1 then
        some ⟨302, [(str "Location", str "/redirect/" ++ pyStr (remaining - 1))], [], none⟩
      else
        some (send_json_response req 200 (jObj [(str "redirected", .bool true)]) false none)
    | none => some ⟨400, [], [], none⟩
  else if path = str "/json" then
    some (send_json_response req 200 (jObj
      [(str "slideshow", jObj
        [(str "title", jstr (str "Sample Slide Show")),
         (str "slides", .arr (jarr
           [jObj [(str "title", jstr (str "Wake up to WonderWidgets!")),
                  (str "type", jstr (str "all"))]]))])]) false none)
  else if path = str "/html" then
    some (send_text_response req 200
      (str "<!DOCTYPE html><html><body><h1>Test HTML</h1></body></html>")
      (str "text/html") false none)
  else if path = str "/gzip" then
    let data := utf8Encode (jsonDumps (jObj
      [(str "gzipped", .bool true), (str "method", jstr (str "GET"))]))
    let compressed := gzipCompress data
    some ⟨200,
      [(str "Content-Type", str "application/json"),
       (str "Content-Encoding", str "gzip"),
       (str "Content-Length", pyStr (Int.ofNat compressed.length))],
      compressed, none⟩
  else if path = str "/deflate" then
    let data := utf8Encode (jsonDumps (jObj
      [(str "deflated", .bool true), (str "method", jstr (str "GET"))]))
    let compressed := zlibCompress data
    some ⟨200,
      [(str "Content-Type", str "application/json"),
       (str "Content-Encoding", str "deflate"),
       (str "Content-Length", pyStr (Int.ofNat compressed.length))],
      compressed, none⟩
  else if path = str "/encoding/utf8" then
    some (send_text_response req 200
      (str "Hello World! 你好世界! Привет мир! مرحبا بالعالم!")
      (str "text/html; charset=utf-8") false none)
  else if startsWithStr path (str "/cache/") then
    match pyInt? (lastSegment path) with
    | some seconds =>
      some ⟨200,
        [(str "Cache-Control", str "public, max-age=" ++ pyStr seconds),
         (str "Content-Type", str "application/json")],
        utf8Encode (jsonDumps (jObj [(str "cached", .bool true)])), none⟩
    | none => some ⟨400, [], [], none⟩
  else if startsWithStr path (str "/delay/") then
    match pyInt? (lastSegment path) with
    | some delay =>
      if delay < -sleepMaxSeconds ∨ sleepMaxSeconds < delay then
        none
      else if delay < 0 then
        some ⟨400, [], [], none⟩
      else
        let r := send_json_response req 200 (jObj [(str "delayed", .int delay)]) false none
        some ⟨r.status, r.headers, r.body, some delay⟩
    | none => some ⟨400, [], [], none⟩
  else if path = str "/cors/simple" then
    some (send_json_response req 200 (jObj
      [(str "cors", jstr (str "simple")),
       (str "origin", jstr (headerGetD req.headers (str "Origin") (str "none")))]) true none)
  else if path = str "/cors/credentials" then
    let origin := headerGetD req.headers (str "Origin") (str "*")
    let response := utf8Encode (jsonDumps (jObj
      [(str "cors", jstr (str "credentials")), (str "origin", jstr origin)]))
    some ⟨200,
      add_cors_headers req origin (str "GET, POST, PUT, DELETE, OPTIONS") (str "*") true ++
        [(str "Content-Type", str "application/json"),
         (str "Content-Length", pyStr (Int.ofNat response.length))],
      response, none⟩
  else if path = str "/cors/no-headers" then
    some (send_json_response req 200 (jObj [(str "cors", jstr (str "blocked"))]) false none)
  else if path = str "/cors/custom-method" then
    some (send_json_response req 200 (jObj [(str "cors", jstr (str "custom-method"))]) true none)
  else if path = str "/csp/default-src" then
    some (send_json_response req 200 (jObj [(str "csp", jstr (str "default-src"))]) false
      (some (str "default-src " ++ sqStr (str "self"))))
  else if path = str "/csp/script-src" then
    some (send_json_response req 200 (jObj [(str "csp", jstr (str "script-src"))]) false
      (some (str "script-src " ++ sqStr (str "self"))))
  else if startsWithStr path (str "/csp/nonce/") then
    let nonce := lastSegment path
    some (send_json_response req 200 (jObj
      [(str "csp", jstr (str "nonce")), (str "nonce", jstr nonce)]) false
      (some (str "script-src " ++ sqStr (str "nonce-" ++ nonce))))
  else if path = str "/csp/hash" then
    some (send_json_response req 200 (jObj [(str "csp", jstr (str "hash"))]) false
      (some (str "script-src " ++
        sqStr (str "sha256-qznLcsROx4GACP2dm0UCKCzCG+HiZ1guq6ZZDob/Tng="))))
  else if path = str "/csp/multiple" then
    some (send_json_response req 200 (jObj [(str "csp", jstr (str "multiple"))]) false
      (some (str "default-src " ++ sqStr (str "self") ++ str "; script-src " ++
        sqStr (str "self") ++ str " " ++ sqStr (str "unsafe-inline") ++
        str "; style-src " ++ sqStr (str "self") ++ str " " ++ sqStr (str "unsafe-inline"))))
  else if path = str "/csp/report-uri" then
    some (send_json_response req 200 (jObj [(str "csp", jstr (str "report-uri"))]) false
      (some (str "default-src " ++ sqStr (str "self") ++ str "; report-uri /csp/report")))
  else if path = str "/csp/report" then
    some (send_json_response req 200 (jObj [(str "received", jstr (str "report"))]) false none)
  else
    some ⟨404, [], [], none⟩

/-- Model of `do_GET`: parse the path out of `self.path`, then run the
dispatch chain.  The result is an `Option Response` because two GET
branches can let an exception escape: a delay value whose nanosecond
conversion overflows in `time.sleep` (uncaught OverflowError), and a
`/response-headers` Content-Type query value outside Latin-1 (uncaught
UnicodeEncodeError in `send_header`). -/
def do_GET (req : Request) : Option Response :=
  do_GET_dispatch req (urlparsePath req.path)

/-- The response a GET produced, with an inert placeholder in the
fault case; used to state properties of responses whose existence is
asserted separately. -/
def respOf (req : Request) : Response :=
  (do_GET req).getD ⟨0, [], [], none⟩

/-- The `Content-Length` computation shared by do_POST / do_PUT /
do_PATCH: `int(self.headers.get('Content-Length', 0))`.  A missing
header gives the integer 0; a present but non-integer value makes
`int` raise an uncaught ValueError (`none`). -/
def contentLength? (req : Request) : Option Int :=
  match headerGet? req.headers (str "Content-Length") with
  | none => some 0
  | some v => pyInt? v

/-- The `json` field do_POST computes from the body bytes:
`json.loads(body) if body else {}` guarded by
`except json.JSONDecodeError`.  An empty body gives `{}`; a body that
is not UTF-8 makes `json.loads` raise a UnicodeDecodeError, which the
handler does not catch (`none`); a decodable but invalid JSON body
falls back to the raw-text object. -/
def postBodyData (body : List Nat) : Option Json :=
  if body = [] then some (jObj [])
  else
    match utf8Decode? body with
    | none => none
    | some s =>
      some (match jsonLoads? s with
        | some j => j
        | none => jObj [(str "raw", jstr (utf8DecodeReplace body))])

/-- Model of `do_POST` (source lines 247-268). -/
def do_POST (req : Request) : Option Response :=
  (contentLength? req).bind fun content_length =>
  let body := readBytes content_length req.rfile
  if urlparsePath req.path = str "/post" then
    (postBodyData body).map fun data =>
      send_json_response req 200 (jObj
        [(str "method", jstr (str "POST")),
         (str "url", jstr (echoUrl req)),
         (str "headers", headersJson req.headers),
         (str "json", data)]) false none
  else some ⟨404, [], [], none⟩

/-- Model of `do_PUT` (source lines 270-282). -/
def do_PUT (req : Request) : Option Response :=
  (contentLength? req).map fun content_length =>
  let body := readBytes content_length req.rfile
  if urlparsePath req.path = str "/put" then
    send_json_response req 200 (jObj
      [(str "method", jstr (str "PUT")),
       (str "data", jstr (utf8DecodeReplace body))]) false none
  else ⟨404, [], [], none⟩

/-- Model of `do_DELETE` (source lines 284-292): reads no body and
cannot raise. -/
def do_DELETE (req : Request) : Response :=
  if urlparsePath req.path = str "/delete" then
    send_json_response req 200 (jObj [(str "method", jstr (str "DELETE"))]) false none
  else ⟨404, [], [], none⟩

/-- Model of `do_PATCH` (source lines 294-306). -/
def do_PATCH (req : Request) : Option Response :=
  (contentLength? req).map fun content_length =>
  let body := readBytes content_length req.rfile
  if urlparsePath req.path = str "/patch" then
    send_json_response req 200 (jObj
      [(str "method", jstr (str "PATCH")),
       (str "data", jstr (utf8DecodeReplace body))]) false none
  else ⟨404, [], [], none⟩

/-- Model of `do_OPTIONS` (source lines 308-340). -/
def do_OPTIONS (req : Request) : Response :=
  let path := urlparsePath req.path
  if startsWithStr path (str "/cors/") then
    let origin := headerGetD req.headers (str "Origin") (str "*")
    let requested_method :=
      headerGetD req.headers (str "Access-Control-Request-Method") (str "GET")
    let requested_headers :=
      headerGetD req.headers (str "Access-Control-Request-Headers") (str "*")
    if containsSub path (str "credentials") then
      ⟨204, add_cors_headers req origin requested_method requested_headers true, [], none⟩
    else
      ⟨204,
       add_cors_headers req (str "*") (str "GET, POST, PUT, DELETE, OPTIONS")
         requested_headers false, [], none⟩
  else
    ⟨200, [(str "Allow", str "GET, POST, PUT, DELETE, PATCH, OPTIONS")], [], none⟩

/-- The server's handling of one request: `none` models a handler
letting an exception escape (the client sees an aborted connection
instead of a response). -/
def handleRequest (req : Request) : Option Response :=
  match req.method with
  | .GET => do_GET req
  | .POST => do_POST req
  | .PUT => do_PUT req
  | .DELETE => some (do_DELETE req)
  | .PATCH => do_PATCH req
  | .OPTIONS => do_OPTIONS req |> some

/-- Parsing a printed integer recovers it: Python `int(str(n)) == n`. -/
theorem pyInt_pyStr (n : Int) : pyInt? (pyStr n) = some n := by
  rw [pyInt?, stripWs_pyStr]
  by_cases hn : n < 0
  · rw [pyStr, if_pos hn]
    have h1 : ¬(('-' : Char) = '+') := by decide
    simp [pyIntCore, h1, pyNatCore_natToDigits]
    rw [abs_of_neg hn, neg_neg]
  · rw [pyStr, if_neg hn]
    obtain ⟨c, rest, hl⟩ := List.exists_cons_of_ne_nil (natToDigits_ne_nil n.toNat)
    have hc : c.isDigit = true := by
      apply natToDigits_digits n.toNat; rw [hl]; simp
    have hplus : ¬(c = '+') := by intro h; subst h; simp at hc
    have hminus : ¬(c = '-') := by intro h; subst h; simp at hc
    rw [hl, pyIntCore, if_neg hplus, if_neg hminus, ← hl, pyNatCore_natToDigits]
    simp
    omega

theorem startsWith_nil (x : Str) : startsWithStr x [] = true := by
  cases x <;> rfl

theorem startsWith_append_left (p t : Str) : startsWithStr (p ++ t) p = true := by
  induction p with
  | nil => exact startsWith_nil _
  | cons c p ih => simp [startsWithStr, ih]

theorem startsWith_append_eq (q : Str) :
    ∀ p t : Str, q.length ≤ p.length →
      startsWithStr (p ++ t) q = startsWithStr p q := by
  induction q with
  | nil => intro p t _; rw [startsWith_nil, startsWith_nil]
  | cons d q ih =>
    intro p t h
    cases p with
    | nil => simp at h
    | cons c p => simp [startsWithStr, ih p t (by simpa using h)]

theorem startsWith_common :
    ∀ a q p : Str, startsWithStr a q = true → startsWithStr a p = true →
      p.length ≤ q.length → startsWithStr q p = true := by
  intro a
  induction a with
  | nil =>
    intro q p hq hp _
    cases q with
    | nil => cases p with
      | nil => rfl
      | cons e p => exact absurd hp (by simp [startsWithStr])
    | cons d q => exact absurd hq (by simp [startsWithStr])
  | cons c a ih =>
    intro q p hq hp hlen
    cases p with
    | nil => exact startsWith_nil _
    | cons e p =>
      cases q with
      | nil => simp at hlen
      | cons d q =>
        rw [startsWithStr] at hq hp ⊢
        rw [Bool.and_eq_true] at hq hp
        have hd : c = d := by simpa using hq.1
        have he : c = e := by simpa using hp.1
        rw [Bool.and_eq_true]
        refine ⟨by simp [← hd, ← he], ih q p hq.2 hp.2 (by simpa using hlen)⟩

theorem startsWith_append_false (p q t : Str)
    (h1 : q.length ≤ p.length → startsWithStr p q = false)
    (h2 : p.length ≤ q.length → startsWithStr q p = false) :
    startsWithStr (p ++ t) q = false := by
  by_cases hlen : q.length ≤ p.length
  · rw [startsWith_append_eq q p t hlen]; exact h1 hlen
  · have hlen2 : p.length ≤ q.length := by omega
    cases hq : startsWithStr (p ++ t) q
    · rfl
    · exfalso
      have hc := startsWith_common (p ++ t) q p hq (startsWith_append_left p t) hlen2
      rw [h2 hlen2] at hc
      cases hc

theorem ne_of_startsWith {a b p : Str} (h1 : startsWithStr a p = true)
    (h2 : startsWithStr b p = false) : ¬(a = b) :=
  fun he => absurd h1 (by rw [he, h2]; decide)

theorem takeWhile_eq_self_of (p : Char → Bool) :
    ∀ l : Str, (∀ c ∈ l, p c = true) → l.takeWhile p = l := by
  intro l
  induction l with
  | nil => intro _; rfl
  | cons c rest ih =>
    intro h
    simp only [List.takeWhile_cons, h c (by simp), if_true,
      ih (fun d hd => h d (by simp [hd]))]

theorem digit_ne {c d : Char} (h : c.isDigit = true) (hd : d.isDigit = false) :
    ¬(c = d) := by
  intro he
  rw [he] at h
  rw [h] at hd
  cases hd

theorem pyStr_chars (n : Int) : ∀ c ∈ pyStr n, c.isDigit = true ∨ c = '-' := by
  intro c hc
  rw [pyStr] at hc
  split at hc
  · rcases List.mem_cons.mp hc with h | h
    · right; exact h
    · left; exact natToDigits_digits _ c h
  · left; exact natToDigits_digits _ c hc

theorem pyStr_clean (n : Int) :
    ∀ c ∈ pyStr n, ¬(c = '?') ∧ ¬(c = '#') ∧ ¬(c = '/') := by
  intro c hc
  rcases pyStr_chars n c hc with h | h
  · exact ⟨digit_ne h (by decide), digit_ne h (by decide), digit_ne h (by decide)⟩
  · subst h; exact ⟨by decide, by decide, by decide⟩

theorem urlparsePath_eq_self (l : Str)
    (h : ∀ c ∈ l, ¬(c = '?') ∧ ¬(c = '#')) : urlparsePath l = l := by
  refine takeWhile_eq_self_of _ l (fun c hc => ?_)
  obtain ⟨h1, h2⟩ := h c hc
  simp [h1, h2]

theorem splitOnChar_ne_nil (sep : Char) (l : Str) : splitOnChar sep l ≠ [] := by
  cases l with
  | nil => simp [splitOnChar]
  | cons c rest =>
    rw [splitOnChar]
    split
    · simp
    · split <;> simp

theorem splitOnChar_not_mem (sep : Char) :
    ∀ l : Str, sep ∉ l → splitOnChar sep l = [l] := by
  intro l
  induction l with
  | nil => intro _; rfl
  | cons c rest ih =>
    intro h
    have hc : ¬(c = sep) := fun he => h (by simp [he])
    have hr : sep ∉ rest := fun hm => h (by simp [hm])
    rw [splitOnChar, ih hr]
    show (if c = sep then [] :: rest :: [] else (c :: rest) :: []) = [c :: rest]
    rw [if_neg hc]

theorem splitOnChar_len2 (sep : Char) :
    ∀ l : Str, sep ∈ l → 2 ≤ (splitOnChar sep l).length := by
  intro l
  induction l with
  | nil => simp
  | cons c rest ih =>
    intro hm
    cases hsp : splitOnChar sep rest with
    | nil => exact absurd hsp (splitOnChar_ne_nil sep rest)
    | cons s ss =>
      rw [splitOnChar, hsp]
      show 2 ≤ (if c = sep then [] :: s :: ss else (c :: s) :: ss).length
      by_cases hc : c = sep
      · simp [hc]
      · rw [if_neg hc]
        have hrest : sep ∈ rest := by
          rcases List.mem_cons.mp hm with h | h
          · exact absurd h.symm hc
          · exact h
        have h2 := ih hrest
        rw [hsp] at h2
        simp at h2 ⊢
        omega

theorem lastD_cons_of_ne (x : Str) (ys : List Str) (h : ys ≠ []) :
    lastD (x :: ys) = lastD ys := by
  cases ys with
  | nil => exact absurd rfl h
  | cons y ys => rfl

theorem lastSegment_append (a s : Str) (h : ('/' : Char) ∉ s) :
    lastSegment (a ++ '/' :: s) = s := by
  induction a with
  | nil =>
    rw [List.nil_append, lastSegment, splitOnChar, splitOnChar_not_mem '/' s h]
    show lastD (if ('/' : Char) = '/' then [] :: s :: [] else ('/' :: s) :: []) = s
    rw [if_pos rfl]
    rfl
  | cons c a ih =>
    rw [List.cons_append, lastSegment]
    have hmem : ('/' : Char) ∈ a ++ '/' :: s := by simp
    cases hsp : splitOnChar '/' (a ++ '/' :: s) with
    | nil => exact absurd hsp (splitOnChar_ne_nil _ _)
    | cons u us =>
      have hus : us ≠ [] := by
        have h2 := splitOnChar_len2 '/' _ hmem
        rw [hsp] at h2
        intro he
        subst he
        simp at h2
      have hlast : lastD (u :: us) = s := by
        rw [lastSegment, hsp] at ih
        exact ih
      rw [splitOnChar, hsp]
      show lastD (if c = '/' then [] :: u :: us else (c :: u) :: us) = s
      by_cases hc : c = '/'
      · rw [if_pos hc, lastD_cons_of_ne _ _ (by simp)]
        exact hlast
      · rw [if_neg hc, lastD_cons_of_ne _ _ hus]
        rw [lastD_cons_of_ne _ _ hus] at hlast
        exact hlast

theorem headerGetD_getD (hs : List (Str × Str)) (nm d : Str) :
    headerGetD hs nm (headerGetD hs nm d) = headerGetD hs nm d := by
  cases h : headerGet? hs nm <;> simp [headerGetD, h]

theorem bfalse {b : Bool} (h : b = false) : ¬(b = true) := by simp [h]

theorem urlparsePath_append (a b : Str)
    (ha : ∀ c ∈ a, ¬(c = '?') ∧ ¬(c = '#'))
    (hb : ∀ c ∈ b, ¬(c = '?') ∧ ¬(c = '#')) :
    urlparsePath (a ++ b) = a ++ b := by
  refine urlparsePath_eq_self _ (fun c hc => ?_)
  rcases List.mem_append.mp hc with h | h
  · exact ha c h
  · exact hb c h

theorem pyStr_no_slash (n : Int) : ('/' : Char) ∉ pyStr n :=
  fun hm => (pyStr_clean n '/' hm).2.2 rfl

theorem lastSegment_after_slash (a s : Str) (h : ('/' : Char) ∉ s) :
    lastSegment (a ++ ['/'] ++ s) = s := by
  rw [List.append_assoc]
  exact lastSegment_append a s h

theorem do_GET_delay (req : Request) (t : Str) :
    do_GET_dispatch req (str "/delay/" ++ t) =
      (match pyInt? (lastSegment (str "/delay/" ++ t)) with
       | some delay =>
         if delay < -sleepMaxSeconds ∨ sleepMaxSeconds < delay then
           none
         else if delay < 0 then
           some ⟨400, [], [], none⟩
         else
           let r := send_json_response req 200 (jObj [(str "delayed", .int delay)]) false none
           some ⟨r.status, r.headers, r.body, some delay⟩
       | none => some ⟨400, [], [], none⟩) := by
  rw [do_GET_dispatch,
    if_neg (ne_of_startsWith (startsWith_append_left (str "/delay/") t) (by decide)),
    if_neg (bfalse (startsWith_append_false (str "/delay/") (str "/status/") t
      (fun _ => by decide) (fun _ => by decide))),
    if_neg (ne_of_startsWith (startsWith_append_left (str "/delay/") t) (by decide)),
    if_neg (ne_of_startsWith (startsWith_append_left (str "/delay/") t) (by decide)),
    if_neg (bfalse (startsWith_append_false (str "/delay/") (str "/redirect/") t
      (fun _ => by decide) (fun _ => by decide))),
    if_neg (ne_of_startsWith (startsWith_append_left (str "/delay/") t) (by decide)),
    if_neg (ne_of_startsWith (startsWith_append_left (str "/delay/") t) (by decide)),
    if_neg (ne_of_startsWith (startsWith_append_left (str "/delay/") t) (by decide)),
    if_neg (ne_of_startsWith (startsWith_append_left (str "/delay/") t) (by decide)),
    if_neg (ne_of_startsWith (startsWith_append_left (str "/delay/") t) (by decide)),
    if_neg (bfalse (startsWith_append_false (str "/delay/") (str "/cache/") t
      (fun _ => by decide) (fun _ => by decide))),
    if_pos (startsWith_append_left (str "/delay/") t)]

/-- The path `/delay/{s}` for an integer s. -/
def delayPath (s : Int) : Str := str "/delay/" ++ pyStr s

theorem pyStr_qh (n : Int) : ∀ c ∈ pyStr n, ¬(c = '?') ∧ ¬(c = '#') :=
  fun c hc => ⟨(pyStr_clean n c hc).1, (pyStr_clean n c hc).2.1⟩

theorem urlparsePath_delayPath (s : Int) :
    urlparsePath (delayPath s) = delayPath s :=
  urlparsePath_append _ _ (by decide) (pyStr_qh s)

theorem lastSegment_delay_any (s : Str) (h : ('/' : Char) ∉ s) :
    lastSegment (str "/delay/" ++ s) = s :=
  lastSegment_after_slash (str "/delay") s h

theorem delay_neg (hs : List (Str × Str)) (rf : List Nat) (d : Int) (hd : d < 0)
    (hmin : -sleepMaxSeconds ≤ d) :
    do_GET ⟨.GET, delayPath d, hs, rf⟩ = some ⟨400, [], [], none⟩ := by
  show do_GET_dispatch ⟨.GET, delayPath d, hs, rf⟩ (urlparsePath (delayPath d)) = _
  rw [urlparsePath_delayPath, delayPath, do_GET_delay,
    lastSegment_delay_any (pyStr d) (pyStr_no_slash d), pyInt_pyStr]
  show (if d < -sleepMaxSeconds ∨ sleepMaxSeconds < d then _ else _) = _
  rw [if_neg (show ¬(d < -sleepMaxSeconds ∨ sleepMaxSeconds < d) by
    simp only [sleepMaxSeconds] at hmin ⊢
    omega)]
  rw [if_pos hd]

theorem delay_overflow (hs : List (Str × Str)) (rf : List Nat) (d : Int)
    (ho : d < -sleepMaxSeconds ∨ sleepMaxSeconds < d) :
    do_GET ⟨.GET, delayPath d, hs, rf⟩ = none := by
  show do_GET_dispatch ⟨.GET, delayPath d, hs, rf⟩ (urlparsePath (delayPath d)) = _
  rw [urlparsePath_delayPath, delayPath, do_GET_delay,
    lastSegment_delay_any (pyStr d) (pyStr_no_slash d), pyInt_pyStr]
  show (if d < -sleepMaxSeconds ∨ sleepMaxSeconds < d then _ else _) = _
  rw [if_pos ho]

theorem delay_400 (hs : List (Str × Str)) (rf : List Nat) (s : Str)
    (hsl : ('/' : Char) ∉ s) (hqh : ∀ c ∈ s, ¬(c = '?') ∧ ¬(c = '#'))
    (hp : pyInt? s = none) :
    do_GET ⟨.GET, str "/delay/" ++ s, hs, rf⟩ = some ⟨400, [], [], none⟩ := by
  show do_GET_dispatch ⟨.GET, str "/delay/" ++ s, hs, rf⟩
    (urlparsePath (str "/delay/" ++ s)) = _
  rw [urlparsePath_append _ _ (by decide) hqh, do_GET_delay,
    lastSegment_delay_any s hsl, hp]

theorem do_OPTIONS_cred (req : Request)
    (hcors : startsWithStr (urlparsePath req.path) (str "/cors/") = true)
    (hcred : containsSub (urlparsePath req.path) (str "credentials") = true) :
    do_OPTIONS req =
      ⟨204,
       [(str "Access-Control-Allow-Origin",
         headerGetD req.headers (str "Origin") (str "*")),
        (str "Access-Control-Allow-Methods",
         headerGetD req.headers (str "Access-Control-Request-Method") (str "GET")),
        (str "Access-Control-Allow-Headers",
         headerGetD req.headers (str "Access-Control-Request-Headers") (str "*")),
        (str "Access-Control-Allow-Credentials", str "true"),
        (str "Access-Control-Max-Age", str "86400")], [], none⟩ := by
  unfold do_OPTIONS
  rw [if_pos hcors, if_pos hcred, add_cors_headers]
  show (⟨204,
    [(str "Access-Control-Allow-Origin",
      headerGetD req.headers (str "Origin")
        (headerGetD req.headers (str "Origin") (str "*"))),
     (str "Access-Control-Allow-Methods",
      headerGetD req.headers (str "Access-Control-Request-Method") (str "GET")),
     (str "Access-Control-Allow-Headers",
      headerGetD req.headers (str "Access-Control-Request-Headers") (str "*")),
     (str "Access-Control-Allow-Credentials", str "true"),
     (str "Access-Control-Max-Age", str "86400")], [], none⟩ : Response) = _
  rw [headerGetD_getD]

theorem do_POST_badlen (req : Request) (hcl : contentLength? req = none) :
    do_POST req = none := by
  simp [do_POST, hcl]

theorem do_POST_badbody (req : Request) (n : Int)
    (hp : urlparsePath req.path = str "/post")
    (hcl : contentLength? req = some n)
    (hbd : postBodyData (readBytes n req.rfile) = none) :
    do_POST req = none := by
  simp [do_POST, hcl, hp, hbd]

set_option maxRecDepth 100000 in
/-- C7: `/gzip` returns 200 with a body whose gzip decompression is
the serialized `\x7b"gzipped": true, "method": "GET"\x7d`,
`Content-Encoding: gzip`, and `Content-Length` equal to the compressed
(not the uncompressed) body length; the analogous facts hold for
`/deflate` with the zlib codec. -/
theorem claim_C7 :
    (do_GET ⟨.GET, str "/gzip", [], []⟩).isSome = true ∧
    (respOf ⟨.GET, str "/gzip", [], []⟩).status = 200 ∧
    gzipDecompress? (respOf ⟨.GET, str "/gzip", [], []⟩).body =
      some (utf8Encode (jsonDumps (jObj
        [(str "gzipped", Json.bool true), (str "method", jstr (str "GET"))]))) ∧
    headerGet? (respOf ⟨.GET, str "/gzip", [], []⟩).headers (str "Content-Encoding") =
      some (str "gzip") ∧
    headerGet? (respOf ⟨.GET, str "/gzip", [], []⟩).headers (str "Content-Length") =
      some (pyStr (Int.ofNat (respOf ⟨.GET, str "/gzip", [], []⟩).body.length)) ∧
    ¬((respOf ⟨.GET, str "/gzip", [], []⟩).body.length =
      (utf8Encode (jsonDumps (jObj
        [(str "gzipped", Json.bool true), (str "method", jstr (str "GET"))]))).length) ∧
    (do_GET ⟨.GET, str "/deflate", [], []⟩).isSome = true ∧
    (respOf ⟨.GET, str "/deflate", [], []⟩).status = 200 ∧
    zlibDecompress? (respOf ⟨.GET, str "/deflate", [], []⟩).body =
      some (utf8Encode (jsonDumps (jObj
        [(str "deflated", Json.bool true), (str "method", jstr (str "GET"))]))) ∧
    headerGet? (respOf ⟨.GET, str "/deflate", [], []⟩).headers (str "Content-Encoding") =
      some (str "deflate") ∧
    headerGet? (respOf ⟨.GET, str "/deflate", [], []⟩).headers (str "Content-Length") =
      some (pyStr (Int.ofNat (respOf ⟨.GET, str "/deflate", [], []⟩).body.length)) ∧
    ¬((respOf ⟨.GET, str "/deflate", [], []⟩).body.length =
      (utf8Encode (jsonDumps (jObj
        [(str "deflated", Json.bool true), (str "method", jstr (str "GET"))]))).length) := by
  decide

/-- Counterexample to C10 as stated: for s = -10000000000 the delay
handler does not answer 400 - time.sleep converts the duration to
nanoseconds before its negativity check and that conversion raises
OverflowError, which `except ValueError` does not catch, so the
connection aborts with no response. -/
theorem counterexample_C10 :
    handleRequest ⟨.GET, delayPath (-10000000000), [], []⟩ = none ∧
    ¬(handleRequest ⟨.GET, delayPath (-10000000000), [], []⟩ =
      some ⟨400, [], [], none⟩) := by
  decide

/-- C10 amended: for negative s down to the sleep bound of
-9223372036 seconds, `GET /delay/{s}` returns 400 with empty body, no
sleep happens, and the response coincides with the one for a
non-integer segment; below that bound time.sleep raises an uncaught
OverflowError and no response is produced. -/
theorem claim_C10 :
    (∀ s : Int, s < 0 → -sleepMaxSeconds ≤ s →
      ∀ (hs : List (Str × Str)) (rf : List Nat),
      handleRequest ⟨.GET, delayPath s, hs, rf⟩ = some ⟨400, [], [], none⟩ ∧
      (respOf ⟨.GET, delayPath s, hs, rf⟩).slept = none ∧
      handleRequest ⟨.GET, delayPath s, hs, rf⟩ =
        handleRequest ⟨.GET, str "/delay/" ++ str "abc", hs, rf⟩) ∧
    (∀ s : Int, s < -sleepMaxSeconds →
      ∀ (hs : List (Str × Str)) (rf : List Nat),
      handleRequest ⟨.GET, delayPath s, hs, rf⟩ = none) := by
  refine ⟨?_, ?_⟩
  · intro s hsneg hsmin hs rf
    have h1 := delay_neg hs rf s hsneg hsmin
    have h2 := delay_400 hs rf (str "abc") (by decide) (by decide) (by decide)
    refine ⟨?_, ?_, ?_⟩
    · show do_GET _ = _
      rw [h1]
    · show ((do_GET _).getD _).slept = none
      rw [h1]
      rfl
    · show do_GET _ = do_GET _
      rw [h1, h2]
  · intro s hso hs rf
    show do_GET _ = _
    rw [delay_overflow hs rf s (Or.inl hso)]

/-- Witness for C10 at s = -3 (in-range) and s = -10000000000
(overflow). -/
theorem claim_C10_witness :
    (handleRequest ⟨.GET, delayPath (-3), [], []⟩ = some ⟨400, [], [], none⟩ ∧
     (respOf ⟨.GET, delayPath (-3), [], []⟩).slept = none ∧
     handleRequest ⟨.GET, delayPath (-3), [], []⟩ =
       handleRequest ⟨.GET, str "/delay/" ++ str "abc", [], []⟩) ∧
    handleRequest ⟨.GET, delayPath (-10000000000), [], []⟩ = none :=
  ⟨claim_C10.1 (-3) (by decide) (by decide) [] [],
   claim_C10.2 (-10000000000) (by decide) [] []⟩

theorem do_GET_cors_credentials (req : Request)
    (hp : urlparsePath req.path = str "/cors/credentials") :
    do_GET req =
      some ⟨200,
       [(str "Access-Control-Allow-Origin",
         headerGetD req.headers (str "Origin") (str "*")),
        (str "Access-Control-Allow-Methods", str "GET, POST, PUT, DELETE, OPTIONS"),
        (str "Access-Control-Allow-Headers", str "*"),
        (str "Access-Control-Allow-Credentials", str "true"),
        (str "Access-Control-Max-Age", str "86400"),
        (str "Content-Type", str "application/json"),
        (str "Content-Length",
         pyStr (Int.ofNat (utf8Encode (jsonDumps (jObj
           [(str "cors", jstr (str "credentials")),
            (str "origin", jstr (headerGetD req.headers (str "Origin") (str "*")))]))).length))],
       utf8Encode (jsonDumps (jObj
         [(str "cors", jstr (str "credentials")),
          (str "origin", jstr (headerGetD req.headers (str "Origin") (str "*")))])),
       none⟩ := by
  rw [do_GET, hp]
  show some (⟨200,
    add_cors_headers req (headerGetD req.headers (str "Origin") (str "*"))
        (str "GET, POST, PUT, DELETE, OPTIONS") (str "*") true ++
      [(str "Content-Type", str "application/json"),
       (str "Content-Length",
        pyStr (Int.ofNat (utf8Encode (jsonDumps (jObj
          [(str "cors", jstr (str "credentials")),
           (str "origin", jstr (headerGetD req.headers (str "Origin") (str "*")))]))).length))],
    utf8Encode (jsonDumps (jObj
      [(str "cors", jstr (str "credentials")),
       (str "origin", jstr (headerGetD req.headers (str "Origin") (str "*")))])),
    none⟩ : Response) = _
  rw [add_cors_headers, headerGetD_getD]
  rfl

/-- Counterexample to C4 as stated: a request to `/cors/credentials`
without an `Origin` header is answered with the wildcard
`Access-Control-Allow-Origin: *` together with
`Access-Control-Allow-Credentials: true`, so the allow-origin value on
the credentials endpoint is not always the echoed request Origin and
can be the wildcard. -/
theorem counterexample_C4 :
    headerGet? (respOf ⟨.GET, str "/cors/credentials", [], []⟩).headers
      (str "Access-Control-Allow-Origin") = some (str "*") ∧
    headerGet? (respOf ⟨.GET, str "/cors/credentials", [], []⟩).headers
      (str "Access-Control-Allow-Credentials") = some (str "true") ∧
    headerGet? (do_OPTIONS ⟨.OPTIONS, str "/cors/credentials", [], []⟩).headers
      (str "Access-Control-Allow-Origin") = some (str "*") := by
  decide

/-- C4 amended: on the credentials CORS endpoints (GET
`/cors/credentials` and OPTIONS on a `/cors/` path containing
`credentials`) the `Access-Control-Allow-Origin` value echoes the
request's `Origin` header verbatim whenever that header is present,
and `Access-Control-Allow-Credentials: true` is always sent; when no
`Origin` header is present the allow-origin value falls back to the
wildcard `*`. -/
theorem claim_C4 :
    (∀ (hs : List (Str × Str)) (rf : List Nat) (o : Str),
      headerGet? hs (str "Origin") = some o →
      (do_GET ⟨.GET, str "/cors/credentials", hs, rf⟩).isSome = true ∧
      headerGet? (respOf ⟨.GET, str "/cors/credentials", hs, rf⟩).headers
        (str "Access-Control-Allow-Origin") = some o ∧
      headerGet? (respOf ⟨.GET, str "/cors/credentials", hs, rf⟩).headers
        (str "Access-Control-Allow-Credentials") = some (str "true") ∧
      headerGet? (do_OPTIONS ⟨.OPTIONS, str "/cors/credentials", hs, rf⟩).headers
        (str "Access-Control-Allow-Origin") = some o ∧
      headerGet? (do_OPTIONS ⟨.OPTIONS, str "/cors/credentials", hs, rf⟩).headers
        (str "Access-Control-Allow-Credentials") = some (str "true")) ∧
    (∀ (hs : List (Str × Str)) (rf : List Nat),
      headerGet? hs (str "Origin") = none →
      (do_GET ⟨.GET, str "/cors/credentials", hs, rf⟩).isSome = true ∧
      headerGet? (respOf ⟨.GET, str "/cors/credentials", hs, rf⟩).headers
        (str "Access-Control-Allow-Origin") = some (str "*") ∧
      headerGet? (do_OPTIONS ⟨.OPTIONS, str "/cors/credentials", hs, rf⟩).headers
        (str "Access-Control-Allow-Origin") = some (str "*")) := by
  constructor
  · intro hs rf o ho
    have hget := do_GET_cors_credentials ⟨.GET, str "/cors/credentials", hs, rf⟩
      (by decide : urlparsePath (str "/cors/credentials") = str "/cors/credentials")
    have hopt := do_OPTIONS_cred ⟨.OPTIONS, str "/cors/credentials", hs, rf⟩
      (by decide : startsWithStr (urlparsePath (str "/cors/credentials")) (str "/cors/") = true)
      (by decide : containsSub (urlparsePath (str "/cors/credentials")) (str "credentials") = true)
    have hD : headerGetD hs (str "Origin") (str "*") = o := by
      rw [headerGetD, ho]
      rfl
    refine ⟨?_, ?_, ?_, ?_, ?_⟩
    · rw [hget]
      rfl
    · simp only [respOf, hget, Option.getD_some, hD]
      rfl
    · simp only [respOf, hget, Option.getD_some, hD]
      rfl
    · rw [hopt, hD]
      rfl
    · rw [hopt, hD]
      rfl
  · intro hs rf ho
    have hget := do_GET_cors_credentials ⟨.GET, str "/cors/credentials", hs, rf⟩
      (by decide : urlparsePath (str "/cors/credentials") = str "/cors/credentials")
    have hopt := do_OPTIONS_cred ⟨.OPTIONS, str "/cors/credentials", hs, rf⟩
      (by decide : startsWithStr (urlparsePath (str "/cors/credentials")) (str "/cors/") = true)
      (by decide : containsSub (urlparsePath (str "/cors/credentials")) (str "credentials") = true)
    have hD : headerGetD hs (str "Origin") (str "*") = str "*" := by
      rw [headerGetD, ho]
      rfl
    refine ⟨?_, ?_, ?_⟩
    · rw [hget]
      rfl
    · simp only [respOf, hget, Option.getD_some, hD]
      rfl
    · rw [hopt, hD]
      rfl

/-- Witness for C4 with `Origin: http://example.com` present, and with
no Origin header. -/
theorem claim_C4_witness :
    ((do_GET ⟨.GET, str "/cors/credentials",
        [(str "Origin", str "http://example.com")], []⟩).isSome = true ∧
     headerGet? (respOf ⟨.GET, str "/cors/credentials",
        [(str "Origin", str "http://example.com")], []⟩).headers
      (str "Access-Control-Allow-Origin") = some (str "http://example.com") ∧
     headerGet? (respOf ⟨.GET, str "/cors/credentials",
        [(str "Origin", str "http://example.com")], []⟩).headers
      (str "Access-Control-Allow-Credentials") = some (str "true") ∧
     headerGet? (do_OPTIONS ⟨.OPTIONS, str "/cors/credentials",
        [(str "Origin", str "http://example.com")], []⟩).headers
      (str "Access-Control-Allow-Origin") = some (str "http://example.com") ∧
     headerGet? (do_OPTIONS ⟨.OPTIONS, str "/cors/credentials",
        [(str "Origin", str "http://example.com")], []⟩).headers
      (str "Access-Control-Allow-Credentials") = some (str "true")) ∧
    ((do_GET ⟨.GET, str "/cors/credentials", [], []⟩).isSome = true ∧
     headerGet? (respOf ⟨.GET, str "/cors/credentials", [], []⟩).headers
      (str "Access-Control-Allow-Origin") = some (str "*") ∧
     headerGet? (do_OPTIONS ⟨.OPTIONS, str "/cors/credentials", [], []⟩).headers
      (str "Access-Control-Allow-Origin") = some (str "*")) :=
  ⟨claim_C4.1 [(str "Origin", str "http://example.com")] []
      (str "http://example.com") (by decide),
   claim_C4.2 [] [] (by decide)⟩

end TestServer
